import Mathlib

/-!
Verification of the OCI blob-storage layer of puzzlefs (src/oci/src/lib.rs and
src/oci/src/index.rs) against its specification.

The embedding models bytes as `Nat` (values < 256), machine words as `Nat` with
explicit reduction modulo 2^32 or 2^64 where the code's arithmetic wraps, the
filesystem as a partial map from relative paths (lists of path components,
relative to the image's `oci_dir` root) to entries, and fallible operations as
`Except Err`.  The SHA-256 function used by `put_blob` (via the external `sha2`
crate) is implemented here in full so that the concrete digest scenarios can be
evaluated.  The derived serde_json serialization of the `OCILayout`, `Index`
and `Descriptor` structs (external crate, lossless for these field types) is
modelled by storing the structured value as the file's content.
-/

/-! ## SHA-256 (the hash `put_blob` computes over the uncompressed input) -/

/-- Truncation to a 32-bit word. -/
def w32 (x : Nat) : Nat := x % 4294967296

/-- 32-bit addition with wraparound. -/
def add32 (a b : Nat) : Nat := (a + b) % 4294967296

/-- 32-bit right rotation. -/
def rotr (n x : Nat) : Nat := w32 ((x >>> n) ||| (x <<< (32 - n)))

def bigSigma0 (x : Nat) : Nat := (rotr 2 x) ^^^ (rotr 13 x) ^^^ (rotr 22 x)

def bigSigma1 (x : Nat) : Nat := (rotr 6 x) ^^^ (rotr 11 x) ^^^ (rotr 25 x)

def smallSigma0 (x : Nat) : Nat := (rotr 7 x) ^^^ (rotr 18 x) ^^^ (x >>> 3)

def smallSigma1 (x : Nat) : Nat := (rotr 17 x) ^^^ (rotr 19 x) ^^^ (x >>> 10)

def chFn (x y z : Nat) : Nat := (x &&& y) ^^^ ((x ^^^ 4294967295) &&& z)

def majFn (x y z : Nat) : Nat := (x &&& y) ^^^ (x &&& z) ^^^ (y &&& z)

/-- The 64 SHA-256 round constants. -/
def sha256K : List Nat :=
  [1116352408, 1899447441, 3049323471, 3921009573, 961987163,
   1508970993, 2453635748, 2870763221, 3624381080, 310598401,
   607225278, 1426881987, 1925078388, 2162078206, 2614888103,
   3248222580, 3835390401, 4022224774, 264347078, 604807628,
   770255983, 1249150122, 1555081692, 1996064986, 2554220882,
   2821834349, 2952996808, 3210313671, 3336571891, 3584528711,
   113926993, 338241895, 666307205, 773529912, 1294757372,
   1396182291, 1695183700, 1986661051, 2177026350, 2456956037,
   2730485921, 2820302411, 3259730800, 3345764771, 3516065817,
   3600352804, 4094571909, 275423344, 430227734, 506948616,
   659060556, 883997877, 958139571, 1322822218, 1537002063,
   1747873779, 1955562222, 2024104815, 2227730452, 2361852424,
   2428436474, 2756734187, 3204031479, 3329325298]

/-- The SHA-256 initial hash value. -/
def sha256H0 : List Nat :=
  [1779033703, 3144134277, 1013904242, 2773480762, 1359893119,
   2600822924, 528734635, 1541459225]

/-- Big-endian byte decomposition of `x` into `n` bytes. -/
def beBytes (n x : Nat) : List Nat :=
  (List.range n).map (fun i => (x >>> (8 * (n - 1 - i))) % 256)

/-- Big-endian 32-bit word from the first four elements of a byte list. -/
def beWord (bs : List Nat) : Nat :=
  match bs with
  | b0 :: b1 :: b2 :: b3 :: _ => b0 * 16777216 + b1 * 65536 + b2 * 256 + b3
  | _ => 0

/-- SHA-256 padding: append 0x80, zeros to 56 mod 64, then the 64-bit
big-endian bit length. -/
def sha256pad (msg : List Nat) : List Nat :=
  let l := msg.length
  let k := (64 + 56 - (l + 1) % 64) % 64
  msg ++ [0x80] ++ List.replicate k 0 ++ beBytes 8 ((8 * l) % 18446744073709551616)

/-- Split a byte list into 64-byte blocks (fuel-based structural recursion). -/
def chunksAux : Nat → List Nat → List (List Nat)
  | 0, _ => []
  | _, [] => []
  | fuel + 1, l => l.take 64 :: chunksAux fuel (l.drop 64)

def chunks64 (l : List Nat) : List (List Nat) := chunksAux l.length l

/-- Extend a 16-word message schedule by one word. -/
def wStep (ws : List Nat) : List Nat :=
  let n := ws.length
  ws ++ [add32 (add32 (smallSigma1 (ws.getD (n - 2) 0)) (ws.getD (n - 7) 0))
               (add32 (smallSigma0 (ws.getD (n - 15) 0)) (ws.getD (n - 16) 0))]

/-- The full 64-word message schedule from the 16 words of a block. -/
def fullW (ws : List Nat) : List Nat :=
  (List.range 48).foldl (fun acc _ => wStep acc) ws

/-- One SHA-256 round on the eight-word working state. -/
def sha256Round (st : List Nat) (wk : Nat × Nat) : List Nat :=
  match st with
  | [a, b, c, d, e, f, g, h] =>
    let t1 := add32 (add32 (add32 h (bigSigma1 e)) (add32 (chFn e f g) wk.2)) wk.1
    let t2 := add32 (bigSigma0 a) (majFn a b c)
    [add32 t1 t2, a, b, c, add32 d t1, e, f, g]
  | other => other

/-- Compression of one 64-byte block into the running hash state. -/
def sha256Compress (h : List Nat) (block : List Nat) : List Nat :=
  let ws0 := (List.range 16).map (fun i => beWord ((block.drop (4 * i)).take 4))
  let st := ((fullW ws0).zip sha256K).foldl sha256Round h
  (h.zip st).map (fun p => add32 p.1 p.2)

/-- SHA-256 of a byte sequence, as a list of 32 bytes. -/
def sha256 (msg : List Nat) : List Nat :=
  let hs := (chunks64 (sha256pad msg)).foldl sha256Compress sha256H0
  (hs.map (beBytes 4)).flatten

/-! ## Hex encoding (the `hex` crate's lowercase encoding of a digest) -/

def hexChar (n : Nat) : Char :=
  if n < 10 then Char.ofNat (48 + n) else Char.ofNat (87 + n)

def hexByte (b : Nat) : List Char := [hexChar (b / 16), hexChar (b % 16)]

/-- Lowercase hex encoding of a byte list, as produced by `hex::encode`. -/
def hexEncode (bs : List Nat) : String := String.mk ((bs.map hexByte).flatten)

/-- The bytes of a string (the embedding uses code points; all literals in the
source are ASCII). -/
def strBytes (s : String) : List Nat := s.data.map Char.toNat

/-! ## Data model

`Descriptor` (src/oci/src/descriptor.rs, re-exported by lib.rs) is not among
the provided source files, so it is modelled from the spec. -/

/-- Modelled from the spec: the Content Descriptor of src/oci/src/descriptor.rs
(file not present under src/): a 32-byte digest of the uncompressed stream, the
uncompressed size, an optional caller-assigned name, and a string-to-string
annotations mapping (modelled as an association list); `new(digest, size)` is a
pure constructor and `set_name` attaches the label afterwards. -/
structure Descriptor where
  digest : List Nat
  size : Nat
  name : Option String
  annotations : List (String × String)
deriving DecidableEq, Repr

def Descriptor.new (digest : List Nat) (size : Nat) : Descriptor :=
  { digest := digest, size := size, name := none, annotations := [] }

def Descriptor.digest_as_str (d : Descriptor) : String := hexEncode d.digest

def Descriptor.set_name (d : Descriptor) (n : String) : Descriptor :=
  { d with name := some n }

/-- The schema version sentinel of src/oci/src/index.rs. -/
def PUZZLEFS_SCHEMA_VERSION : Int := -1

/-- The layout version string of src/oci/src/lib.rs. -/
def PUZZLEFS_IMAGE_LAYOUT_VERSION : String := "puzzlefs-dev"

/-- The name of the index file (`index::PATH`). -/
def indexPATH : String := "index.json"

/-- The name of the layout marker file (`IMAGE_LAYOUT_PATH`). -/
def IMAGE_LAYOUT_PATH : String := "oci-layout"

/-- The `Index` struct of src/oci/src/index.rs: schemaVersion, manifests,
annotations (the HashMap is modelled as an association list). -/
structure Index where
  version : Int
  manifests : List Descriptor
  annotations : List (String × String)
deriving DecidableEq, Repr

/-- `Default for Index` of src/oci/src/index.rs. -/
def Index.default : Index :=
  { version := PUZZLEFS_SCHEMA_VERSION, manifests := [], annotations := [] }

/-- The `OCILayout` struct of src/oci/src/lib.rs (imageLayoutVersion). -/
structure OCILayout where
  version : String
deriving DecidableEq, Repr

/-! ## Filesystem model

Paths are lists of components relative to the image root (`oci_dir`).  A file's
content is either raw bytes (blobs, temp files) or a structured value standing
for the serde_json serialization of the corresponding struct (the derived
serde_json codec of the external crate is lossless for these field types, so it
is modelled as the identity on the structured value). -/

inductive FileData where
  | raw : List Nat → FileData
  | layout : OCILayout → FileData
  | idx : Index → FileData
deriving DecidableEq, Repr

inductive Entry where
  | dir : Entry
  | file : FileData → Entry
deriving DecidableEq, Repr

def FS : Type := List String → Option Entry

def FS.set (fs : FS) (p : List String) (e : Entry) : FS :=
  fun q => if q = p then some e else fs q

def FS.del (fs : FS) (p : List String) : FS :=
  fun q => if q = p then none else fs q

/-- `Image::blob_path`: `oci_dir.join("blobs/sha256")`, as relative components. -/
def blob_path : List String := ["blobs", "sha256"]

/-- The path of the blob stored under a given hex name. -/
def blobFile (name : String) : List String := ["blobs", "sha256", name]

/-! ## Error model

The four error kinds of the spec's taxonomy.  In the code these surface as
`io::Error` with kind `NotFound`, `io::Error` with kind `Other` carrying the
offending version in its message, a `serde_json`/conversion error, and other
`io::Error`s; the embedding gives each its own constructor, version mismatches
carrying the offending value. -/

inductive Err where
  | notFound : Err
  | versionMismatchStr : String → Err
  | versionMismatchInt : Int → Err
  | malformed : Err
  | io : Err
deriving DecidableEq, Repr

inductive ErrKind where
  | notFound : ErrKind
  | versionMismatch : ErrKind
  | malformed : ErrKind
  | io : ErrKind
deriving DecidableEq, Repr

def Err.kind : Err → ErrKind
  | .notFound => .notFound
  | .versionMismatchStr _ => .versionMismatch
  | .versionMismatchInt _ => .versionMismatch
  | .malformed => .malformed
  | .io => .io

/-! ## Compression backend

The `compression` crate (Compression trait, Noop) is external to the provided
sources; a backend is modelled by its effect on the byte stream. -/

structure Compression where
  compress : List Nat → List Nat
  decompress : List Nat → List Nat

/-- Modelled from the spec: `compression::Noop` (crate not present under src/),
the backend with no compression — both directions are the identity on bytes. -/
def Noop : Compression := { compress := id, decompress := id }

/-! ## Image operations (src/oci/src/lib.rs) -/

/-- `fs::create_dir_all(blob_path)`: creates `blobs` and `blobs/sha256` as
directories (a no-op when they already exist); fails if a non-directory sits at
either path. -/
def mkdirBlobPath (fs : FS) : Except Err FS :=
  match fs ["blobs"], fs ["blobs", "sha256"] with
  | some (.file _), _ => .error .io
  | _, some (.file _) => .error .io
  | _, _ => .ok ((fs.set ["blobs"] .dir).set ["blobs", "sha256"] .dir)

/-- `Image::new`: create the blob directory tree, then create (truncating) the
`oci-layout` marker and serialize the fixed layout version into it. -/
def Image.new (fs : FS) : Except Err FS := do
  let fs1 ← mkdirBlobPath fs
  .ok (fs1.set [IMAGE_LAYOUT_PATH]
        (.file (.layout { version := PUZZLEFS_IMAGE_LAYOUT_VERSION })))

/-- `Image::open`: open and parse the marker, reject a version other than
`PUZZLEFS_IMAGE_LAYOUT_VERSION` with an error carrying the offending string. -/
def Image.openImage (fs : FS) : Except Err Unit :=
  match fs [IMAGE_LAYOUT_PATH] with
  | none => .error .notFound
  | some .dir => .error .io
  | some (.file (.layout l)) =>
    if l.version = PUZZLEFS_IMAGE_LAYOUT_VERSION then .ok ()
    else .error (.versionMismatchStr l.version)
  | some (.file _) => .error .malformed

/-- `Image::put_blob`, for an input stream `b` and a fresh temp-file name
`tmpName` chosen by `NamedTempFile::new_in(oci_dir)` (a unique name directly in
the root directory): the input is streamed once through the SHA-256 hasher
(tee) while the compressed output goes to the temp file; the descriptor records
the digest of and the number of uncompressed bytes; the temp file is then
persisted (renamed) to `blobs/sha256/<hex digest>`. -/
def Image.put_blob (C : Compression) (fs : FS) (tmpName : String)
    (b : List Nat) : Descriptor × FS :=
  let digest := sha256 b
  let descriptor := Descriptor.new digest b.length
  let written := C.compress b
  let fs1 := fs.set [tmpName] (.file (.raw written))
  let fs2 := (fs1.del [tmpName]).set (blobFile (hexEncode digest))
               (.file (.raw written))
  (descriptor, fs2)

/-- `Image::open_raw_blob`: open the blob file named by the hex digest. -/
def Image.open_raw_blob (fs : FS) (digest : List Nat) : Except Err (List Nat) :=
  match fs (blobFile (hexEncode digest)) with
  | some (.file (.raw c)) => .ok c
  | some _ => .error .malformed
  | none => .error .notFound

/-! ## Chunk references (external `format` crate) -/

/-- Modelled from the spec: the Chunk Reference `format::BlobRef` of the
external metadata crate (not present under src/): a digest field whose
conversion to the fixed 32-byte array can fail, and a byte offset into the
physical stored blob. -/
structure BlobRef where
  digest : List Nat
  offset : Nat
deriving DecidableEq, Repr

/-- Modelled from the spec: `<[u8; 32]>::try_from(chunk)` — succeeds exactly
when the digest field is 32 bytes wide, failing with a conversion error
otherwise. -/
def BlobRef.toArr32 (c : BlobRef) : Except Err (List Nat) :=
  if c.digest.length = 32 then .ok c.digest else .error .malformed

/-- `Image::fill_from_chunk`: convert the digest, open the raw blob, seek to
`chunk.offset + addl_offset` from the start of the physical file, and perform
one read of at most `bufLen` bytes, returning the bytes read. -/
def Image.fill_from_chunk (fs : FS) (chunk : BlobRef) (addl_offset : Nat)
    (bufLen : Nat) : Except Err (List Nat) := do
  let digest ← chunk.toArr32
  let blob ← Image.open_raw_blob fs digest
  .ok ((blob.drop (chunk.offset + addl_offset)).take bufLen)

/-! ## Index operations (src/oci/src/index.rs) -/

/-- `Index::open`: open the file at `p`, deserialize, and reject a schema
version other than `PUZZLEFS_SCHEMA_VERSION` with an error carrying the
offending value. -/
def Index.openIdx (fs : FS) (p : List String) : Except Err Index :=
  match fs p with
  | none => .error .notFound
  | some .dir => .error .io
  | some (.file (.idx i)) =>
    if i.version = PUZZLEFS_SCHEMA_VERSION then .ok i
    else .error (.versionMismatchInt i.version)
  | some (.file _) => .error .malformed

/-- `Index::write`: create (truncating) the file at `p` and serialize the whole
index into it. -/
def Index.write (fs : FS) (p : List String) (i : Index) : FS :=
  fs.set p (.file (.idx i))

/-- `Image::get_index`: `Index::open` at `oci_dir/index.json`. -/
def Image.get_index (fs : FS) : Except Err Index :=
  Index.openIdx fs [indexPATH]

/-- `Image::put_index`: `Index::write` at `oci_dir/index.json`. -/
def Image.put_index (fs : FS) (i : Index) : FS :=
  Index.write fs [indexPATH] i

/-! ## Concrete filesystems -/

/-- The empty root directory. -/
def emptyFS : FS := fun _ => none

/-- The filesystem of a freshly created image: the blob directory tree and the
layout marker (`Image::new` on an empty root). -/
def newImageFS : FS :=
  ((emptyFS.set ["blobs"] .dir).set ["blobs", "sha256"] .dir).set
    [IMAGE_LAYOUT_PATH] (.file (.layout { version := PUZZLEFS_IMAGE_LAYOUT_VERSION }))

/-! ## Trace model of `put_blob`

`put_blob` interacts with the filesystem through three primitive operations:
creating the temp file, writing (appending) chunks of the compressed stream to
it as `io::copy` proceeds, and the final `persist` (rename).  The trace model
makes each primitive an explicit event so that intermediate filesystem states —
what a concurrent reader can observe — become statable. -/

inductive FsOp where
  | create : List String → FsOp
  | write : List String → List Nat → FsOp
  | rename : List String → List String → FsOp
deriving DecidableEq, Repr

def applyOp (fs : FS) : FsOp → FS
  | .create p => fs.set p (.file (.raw []))
  | .write p c =>
    match fs p with
    | some (.file (.raw old)) => fs.set p (.file (.raw (old ++ c)))
    | _ => fs
  | .rename src dst =>
    match fs src with
    | some e => (fs.del src).set dst e
    | none => fs

def applyOps (fs : FS) (ops : List FsOp) : FS := ops.foldl applyOp fs

/-- The event trace of `Image::put_blob`: create the temp file directly in the
root directory, append the compressed stream to it in whatever chunks
`io::copy` produces, then rename it to its digest-derived final name.  The
chunking is arbitrary; its concatenation is the compressed stream. -/
def put_blobTrace (tmpName : String) (b : List Nat)
    (cs : List (List Nat)) : List FsOp :=
  FsOp.create [tmpName] :: (cs.map (fun c => FsOp.write [tmpName] c))
    ++ [FsOp.rename [tmpName] (blobFile (hexEncode (sha256 b)))]

/-- Whether an event touches a path inside the final blob directory. -/
def touchesBlobDir : FsOp → Bool
  | .create p => decide (p.take 2 = blob_path)
  | .write p _ => decide (p.take 2 = blob_path)
  | .rename _ dst => decide (dst.take 2 = blob_path)

/-! ## Failure injection for `put_blob`

Each `?` in `Image::put_blob` propagates the first I/O failure (temp-file
creation, the streaming write, the rename) and abandons the operation; the
flags inject a failure at the corresponding step. -/

structure IoFaults where
  tempFail : Bool
  writeFail : Bool
  renameFail : Bool
deriving DecidableEq, Repr

def Image.put_blobF (flt : IoFaults) (C : Compression) (fs : FS)
    (tmpName : String) (b : List Nat) : Except Err (Descriptor × FS) :=
  if flt.tempFail then .error .io
  else if flt.writeFail then .error .io
  else if flt.renameFail then .error .io
  else .ok (Image.put_blob C fs tmpName b)

/-! ## Concrete fixtures for the scenarios -/

/-- The raw content "0123456789" of the chunked-read scenario. -/
def tenBytes : List Nat := strBytes "0123456789"

/-- A filesystem holding "0123456789" stored uncompressed at its
digest-derived blob path. -/
def chunkFS : FS :=
  emptyFS.set (blobFile (hexEncode (sha256 tenBytes))) (.file (.raw tenBytes))

/-- The chunk reference of the scenario: that blob's digest, offset 3. -/
def chunkRef : BlobRef := { digest := sha256 tenBytes, offset := 3 }

/-- A filesystem whose index file carries schemaVersion 2 (a standard OCI
image index). -/
def badIdxFS : FS :=
  emptyFS.set [indexPATH]
    (.file (.idx { version := 2, manifests := [], annotations := [] }))

/-- A filesystem whose layout marker carries a foreign version string. -/
def badLayoutFS : FS :=
  emptyFS.set [IMAGE_LAYOUT_PATH] (.file (.layout { version := "oci-v1" }))

/-- A sample index with a named manifest and an annotation. -/
def sampleIndex : Index :=
  { version := PUZZLEFS_SCHEMA_VERSION
    manifests := [Descriptor.set_name (Descriptor.new (sha256 []) 0) "foo"]
    annotations := [("k", "v")] }

/-! ## Theorems -/

set_option maxRecDepth 1000000

/-- C1: for every input byte stream `b` and every Compression backend `C`,
`put_blob` returns a Descriptor whose digest is SHA-256 of the uncompressed
bytes `b` and whose size is the number of uncompressed bytes of `b`;
concretely, writing "meshuggah rocks" with Noop compression yields digest hex
3abd5ce0f91f640d88dca1f26b37037b02415927cacec9626d87668a715ec12d and a file of
that name under blobs/sha256/. -/
theorem put_blob_digest_and_size :
    (∀ (C : Compression) (fs : FS) (tmpName : String) (b : List Nat),
        (Image.put_blob C fs tmpName b).1.digest = sha256 b ∧
        (Image.put_blob C fs tmpName b).1.size = b.length) ∧
    Descriptor.digest_as_str
        (Image.put_blob Noop newImageFS ".tmp0" (strBytes "meshuggah rocks")).1
      = "3abd5ce0f91f640d88dca1f26b37037b02415927cacec9626d87668a715ec12d" ∧
    (Image.put_blob Noop newImageFS ".tmp0" (strBytes "meshuggah rocks")).2
        (blobFile "3abd5ce0f91f640d88dca1f26b37037b02415927cacec9626d87668a715ec12d")
      = some (.file (.raw (strBytes "meshuggah rocks"))) :=
  ⟨fun _ _ _ _ => ⟨rfl, rfl⟩, by rfl, by rfl⟩

/-- C2: for every byte sequence `b`, storing `b` via `put_blob` with the Noop
backend and then opening the blob by the returned descriptor's digest via
`open_raw_blob` yields exactly `b`. -/
theorem put_blob_open_raw_roundtrip :
    ∀ (fs : FS) (tmpName : String) (b : List Nat),
      Image.open_raw_blob (Image.put_blob Noop fs tmpName b).2
          (Image.put_blob Noop fs tmpName b).1.digest = .ok b := by
  intro fs tmpName b
  simp [Image.put_blob, Image.open_raw_blob, Descriptor.new, Noop, FS.set, FS.del]

/-- C4: `fill_from_chunk` with a digest of exactly 32 bytes and an existing
blob seeks to physical offset `chunk.offset + addl_offset` and performs one
read of at most `bufLen` bytes (possibly zero at end-of-file); a digest that is
not 32 bytes fails with a conversion error and an absent blob with not-found;
concretely, on the uncompressed blob "0123456789" with chunk offset 3 and
additional offset 2 a 4-byte read yields "5678". -/
theorem fill_from_chunk_spec :
    (∀ (fs : FS) (chunk : BlobRef) (addl_offset bufLen : Nat) (data : List Nat),
        chunk.digest.length = 32 →
        fs (blobFile (hexEncode chunk.digest)) = some (.file (.raw data)) →
        Image.fill_from_chunk fs chunk addl_offset bufLen
            = .ok ((data.drop (chunk.offset + addl_offset)).take bufLen) ∧
          ((data.drop (chunk.offset + addl_offset)).take bufLen).length ≤ bufLen) ∧
    (∀ (fs : FS) (chunk : BlobRef) (addl_offset bufLen : Nat),
        chunk.digest.length ≠ 32 →
        Image.fill_from_chunk fs chunk addl_offset bufLen = .error .malformed) ∧
    (∀ (fs : FS) (chunk : BlobRef) (addl_offset bufLen : Nat),
        chunk.digest.length = 32 →
        fs (blobFile (hexEncode chunk.digest)) = none →
        Image.fill_from_chunk fs chunk addl_offset bufLen = .error .notFound) ∧
    Image.fill_from_chunk chunkFS chunkRef 2 4 = .ok (strBytes "5678") := by
  refine ⟨?_, ?_, ?_, by rfl⟩
  · intro fs chunk addl_offset bufLen data h32 hblob
    constructor
    · simp [Image.fill_from_chunk, BlobRef.toArr32, h32, Image.open_raw_blob, hblob,
            bind, Except.bind]
    · simp [List.length_take]
  · intro fs chunk addl_offset bufLen h32
    simp [Image.fill_from_chunk, BlobRef.toArr32, h32, bind, Except.bind]
  · intro fs chunk addl_offset bufLen h32 hnone
    simp [Image.fill_from_chunk, BlobRef.toArr32, h32, Image.open_raw_blob, hnone,
          bind, Except.bind]

/-- Witness for C4: the concrete chunked-read scenario, obtained from the
general statement with every hypothesis discharged by evaluation. -/
theorem fill_from_chunk_spec_witness :
    Image.fill_from_chunk chunkFS chunkRef 2 4
        = .ok ((tenBytes.drop (chunkRef.offset + 2)).take 4) ∧
      ((tenBytes.drop (chunkRef.offset + 2)).take 4).length ≤ 4 :=
  fill_from_chunk_spec.1 chunkFS chunkRef 2 4 tenBytes (by rfl) (by rfl)

/-- C5: `Index::open` fails with a version-mismatch error carrying the parsed
schemaVersion whenever it differs from the sentinel and succeeds when it
matches; `Image::open` fails with a version-mismatch error carrying the parsed
layout version string whenever it differs from the expected constant and
succeeds when it matches. -/
theorem version_gates :
    (∀ (fs : FS) (p : List String) (i : Index),
        fs p = some (.file (.idx i)) → i.version ≠ PUZZLEFS_SCHEMA_VERSION →
        Index.openIdx fs p = .error (.versionMismatchInt i.version)) ∧
    (∀ (fs : FS) (p : List String) (i : Index),
        fs p = some (.file (.idx i)) → i.version = PUZZLEFS_SCHEMA_VERSION →
        Index.openIdx fs p = .ok i) ∧
    (∀ (fs : FS) (l : OCILayout),
        fs [IMAGE_LAYOUT_PATH] = some (.file (.layout l)) →
        l.version ≠ PUZZLEFS_IMAGE_LAYOUT_VERSION →
        Image.openImage fs = .error (.versionMismatchStr l.version)) ∧
    (∀ (fs : FS) (l : OCILayout),
        fs [IMAGE_LAYOUT_PATH] = some (.file (.layout l)) →
        l.version = PUZZLEFS_IMAGE_LAYOUT_VERSION →
        Image.openImage fs = .ok ()) := by
  refine ⟨?_, ?_, ?_, ?_⟩
  · intro fs p i h hv; simp [Index.openIdx, h, hv]
  · intro fs p i h hv; simp [Index.openIdx, h, hv]
  · intro fs l h hv; simp [Image.openImage, h, hv]
  · intro fs l h hv; simp [Image.openImage, h, hv]

/-- Witness for C5: a schemaVersion-2 index and an "oci-v1" layout marker are
both rejected with the offending value; the sentinel index and the expected
marker are accepted. -/
theorem version_gates_witness :
    Index.openIdx badIdxFS [indexPATH] = .error (.versionMismatchInt 2) ∧
    Image.openImage badLayoutFS = .error (.versionMismatchStr "oci-v1") ∧
    Index.openIdx (Index.write emptyFS [indexPATH] Index.default) [indexPATH]
        = .ok Index.default ∧
    Image.openImage newImageFS = .ok () :=
  ⟨version_gates.1 badIdxFS [indexPATH]
      { version := 2, manifests := [], annotations := [] } rfl (by decide),
   version_gates.2.2.1 badLayoutFS { version := "oci-v1" } rfl (by decide),
   version_gates.2.1 (Index.write emptyFS [indexPATH] Index.default) [indexPATH]
      Index.default rfl rfl,
   version_gates.2.2.2 newImageFS
      { version := PUZZLEFS_IMAGE_LAYOUT_VERSION } rfl rfl⟩

/-- C6: writing an Index holding the fixed schema version with `Index::write`
and reading the same path back with `Index::open` yields the index field-wise
unchanged (schema version, manifests in order, annotations). -/
theorem index_write_open_roundtrip :
    ∀ (fs : FS) (p : List String) (i : Index),
      i.version = PUZZLEFS_SCHEMA_VERSION →
      Index.openIdx (Index.write fs p i) p = .ok i := by
  intro fs p i h
  simp [Index.openIdx, Index.write, FS.set, h]

/-- Witness for C6: round trip of a sample index with a named manifest and an
annotation. -/
theorem index_write_open_roundtrip_witness :
    Index.openIdx (Index.write emptyFS [indexPATH] sampleIndex) [indexPATH]
      = .ok sampleIndex :=
  index_write_open_roundtrip emptyFS [indexPATH] sampleIndex rfl

/-- C7: two `put_blob` calls with identical bytes and the same backend return
equal Descriptors (hence equal digest and size); the second rename overwrites
the first file at the same digest-derived name, leaving exactly one physical
blob file under blobs/sha256/ when the image held none before. -/
theorem put_blob_idempotent :
    ∀ (C : Compression) (fs : FS) (t1 t2 : String) (b : List Nat),
      (∀ name, fs (blobFile name) = none) →
      (Image.put_blob C (Image.put_blob C fs t1 b).2 t2 b).1
          = (Image.put_blob C fs t1 b).1 ∧
      (Image.put_blob C (Image.put_blob C fs t1 b).2 t2 b).2
          (blobFile (hexEncode (sha256 b)))
          = some (.file (.raw (C.compress b))) ∧
      (∀ name,
        (Image.put_blob C (Image.put_blob C fs t1 b).2 t2 b).2 (blobFile name)
            ≠ none →
        name = hexEncode (sha256 b)) := by
  intro C fs t1 t2 b hempty
  refine ⟨rfl, by simp [Image.put_blob, FS.set], ?_⟩
  intro name hne
  by_cases hn : name = hexEncode (sha256 b)
  · exact hn
  · exfalso
    apply hne
    have hb1 : blobFile name ≠ blobFile (hexEncode (sha256 b)) := by
      simp [blobFile, hn]
    have hbt1 : blobFile name ≠ [t1] := by simp [blobFile]
    have hbt2 : blobFile name ≠ [t2] := by simp [blobFile]
    simp [Image.put_blob, FS.set, FS.del, hb1, hbt1, hbt2, hempty name]

/-- Witness for C7: the double write of "ab" with Noop compression on a fresh
image. -/
theorem put_blob_idempotent_witness :
    (Image.put_blob Noop (Image.put_blob Noop newImageFS ".t1" (strBytes "ab")).2
          ".t2" (strBytes "ab")).1
        = (Image.put_blob Noop newImageFS ".t1" (strBytes "ab")).1 ∧
    (Image.put_blob Noop (Image.put_blob Noop newImageFS ".t1" (strBytes "ab")).2
          ".t2" (strBytes "ab")).2
        (blobFile (hexEncode (sha256 (strBytes "ab"))))
        = some (.file (.raw (Noop.compress (strBytes "ab")))) ∧
    (∀ name,
      (Image.put_blob Noop (Image.put_blob Noop newImageFS ".t1" (strBytes "ab")).2
            ".t2" (strBytes "ab")).2 (blobFile name) ≠ none →
      name = hexEncode (sha256 (strBytes "ab"))) :=
  put_blob_idempotent Noop newImageFS ".t1" ".t2" (strBytes "ab") (fun _ => rfl)

/-- C8: the error domain distinguishes exactly the four kinds NotFound,
VersionMismatch, Malformed and IO; `put_blob` with a failure injected at the
temp-file creation, the streaming write, or the rename propagates an I/O error
and returns a Descriptor exactly when no step failed; `Image::open` always
returns either a success or an error value. -/
theorem error_taxonomy_and_no_partial :
    (∀ e : Err, e.kind = .notFound ∨ e.kind = .versionMismatch ∨
        e.kind = .malformed ∨ e.kind = .io) ∧
    (∀ (flt : IoFaults) (C : Compression) (fs : FS) (t : String) (b : List Nat),
        (∃ d fs2, Image.put_blobF flt C fs t b = .ok (d, fs2)) ↔
          flt = { tempFail := false, writeFail := false, renameFail := false }) ∧
    (∀ (flt : IoFaults) (C : Compression) (fs : FS) (t : String) (b : List Nat),
        flt.tempFail = true ∨ flt.writeFail = true ∨ flt.renameFail = true →
        Image.put_blobF flt C fs t b = .error .io) ∧
    (∀ fs : FS, Image.openImage fs = .ok () ∨
        ∃ e, Image.openImage fs = .error e) := by
  refine ⟨?_, ?_, ?_, ?_⟩
  · intro e; cases e <;> simp [Err.kind]
  · intro flt C fs t b
    obtain ⟨x, y, z⟩ := flt
    cases x <;> cases y <;> cases z <;> simp [Image.put_blobF]
    exact ⟨_, _, rfl⟩
  · intro flt C fs t b h
    obtain ⟨x, y, z⟩ := flt
    cases x <;> cases y <;> cases z <;> simp_all [Image.put_blobF]
  · intro fs
    rcases hfs : fs [IMAGE_LAYOUT_PATH] with _ | e
    · exact Or.inr ⟨Err.notFound, by simp [Image.openImage, hfs]⟩
    · rcases e with _ | fd
      · exact Or.inr ⟨Err.io, by simp [Image.openImage, hfs]⟩
      · rcases fd with c | l | i
        · exact Or.inr ⟨Err.malformed, by simp [Image.openImage, hfs]⟩
        · by_cases hv : l.version = PUZZLEFS_IMAGE_LAYOUT_VERSION
          · exact Or.inl (by simp [Image.openImage, hfs, hv])
          · exact Or.inr ⟨Err.versionMismatchStr l.version,
              by simp [Image.openImage, hfs, hv]⟩
        · exact Or.inr ⟨Err.malformed, by simp [Image.openImage, hfs]⟩

/-- Witness for C8: a failed rename yields an I/O error, never a Descriptor. -/
theorem error_taxonomy_and_no_partial_witness :
    Image.put_blobF { tempFail := false, writeFail := false, renameFail := true }
        Noop emptyFS ".t" [] = .error .io :=
  error_taxonomy_and_no_partial.2.2.1
    { tempFail := false, writeFail := false, renameFail := true }
    Noop emptyFS ".t" [] (Or.inr (Or.inr rfl))

/-- C9: `Image::new` on a root that already contains a valid image succeeds,
re-creates the blob directory tree as a no-op, overwrites only the oci-layout
marker with the fixed version string, and leaves every other path — every blob
file and any index.json — unchanged. -/
theorem image_new_preserves_existing :
    ∀ fs : FS,
      fs ["blobs"] = some .dir →
      fs ["blobs", "sha256"] = some .dir →
      ∃ fs2, Image.new fs = .ok fs2 ∧
        fs2 [IMAGE_LAYOUT_PATH]
          = some (.file (.layout { version := PUZZLEFS_IMAGE_LAYOUT_VERSION })) ∧
        ∀ p, p ≠ [IMAGE_LAYOUT_PATH] → fs2 p = fs p := by
  intro fs hb hbs
  have hm : mkdirBlobPath fs
      = .ok ((fs.set ["blobs"] .dir).set ["blobs", "sha256"] .dir) := by
    simp [mkdirBlobPath, hb, hbs]
  refine ⟨((fs.set ["blobs"] .dir).set ["blobs", "sha256"] .dir).set
      [IMAGE_LAYOUT_PATH]
      (.file (.layout { version := PUZZLEFS_IMAGE_LAYOUT_VERSION })),
    by simp [Image.new, hm, bind, Except.bind], by simp [FS.set], ?_⟩
  intro p hp
  by_cases h1 : p = ["blobs", "sha256"]
  · subst h1; simp [FS.set, IMAGE_LAYOUT_PATH, hbs]
  · by_cases h2 : p = ["blobs"]
    · subst h2; simp [FS.set, IMAGE_LAYOUT_PATH, hb]
    · simp [FS.set, hp, h1, h2]

/-- Witness for C9: re-running `Image::new` on a freshly created image. -/
theorem image_new_preserves_existing_witness :
    ∃ fs2, Image.new newImageFS = .ok fs2 ∧
      fs2 [IMAGE_LAYOUT_PATH]
        = some (.file (.layout { version := PUZZLEFS_IMAGE_LAYOUT_VERSION })) ∧
      ∀ p, p ≠ [IMAGE_LAYOUT_PATH] → fs2 p = newImageFS p :=
  image_new_preserves_existing newImageFS rfl rfl

/-- C10: the schema sentinel is the concrete integer -1; `Index::default` is
the index with version -1, no manifests and no annotations; `Index::open`
rejects every index whose schemaVersion differs from -1, and in particular a
standard OCI image index with schemaVersion 2 always fails to load. -/
theorem schema_version_sentinel :
    PUZZLEFS_SCHEMA_VERSION = -1 ∧
    Index.default = { version := -1, manifests := [], annotations := [] } ∧
    (∀ (fs : FS) (p : List String) (i : Index),
        fs p = some (.file (.idx i)) → i.version ≠ -1 →
        Index.openIdx fs p = .error (.versionMismatchInt i.version)) ∧
    Index.openIdx badIdxFS [indexPATH] = .error (.versionMismatchInt 2) := by
  refine ⟨rfl, rfl, ?_, by rfl⟩
  intro fs p i h hv
  simp [Index.openIdx, h, PUZZLEFS_SCHEMA_VERSION, hv]

/-- Witness for C10: the schemaVersion-2 index is rejected with the offending
value, via the general rejection statement. -/
theorem schema_version_sentinel_witness :
    Index.openIdx badIdxFS [indexPATH] = .error (.versionMismatchInt 2) :=
  schema_version_sentinel.2.2.1 badIdxFS [indexPATH]
    { version := 2, manifests := [], annotations := [] } rfl (by decide)

/-! ### Helper lemmas about traces -/

theorem applyOps_cons (fs : FS) (op : FsOp) (ops : List FsOp) :
    applyOps fs (op :: ops) = applyOps (applyOp fs op) ops := rfl

theorem applyOps_append (fs : FS) (l1 l2 : List FsOp) :
    applyOps fs (l1 ++ l2) = applyOps (applyOps fs l1) l2 := by
  simp [applyOps]

/-- Write events on the temp file accumulate its content in order. -/
theorem applyOps_writes_acc (t : String) (cs : List (List Nat)) :
    ∀ (fs : FS) (acc : List Nat),
      fs [t] = some (.file (.raw acc)) →
      applyOps fs (cs.map (fun c => FsOp.write [t] c)) [t]
        = some (.file (.raw (acc ++ cs.flatten))) := by
  induction cs with
  | nil => intro fs acc h; simpa [applyOps] using h
  | cons c cs ih =>
    intro fs acc h
    rw [List.map_cons, applyOps_cons]
    have step : applyOp fs (FsOp.write [t] c)
        = fs.set [t] (.file (.raw (acc ++ c))) := by
      simp [applyOp, h]
    rw [step]
    have := ih (fs.set [t] (.file (.raw (acc ++ c)))) (acc ++ c) (by simp [FS.set])
    simpa [List.append_assoc] using this

/-- Write events on the temp file leave every other path unchanged. -/
theorem applyOps_writes_frame (t : String) (q : List String) (hq : q ≠ [t])
    (cs : List (List Nat)) :
    ∀ fs : FS, applyOps fs (cs.map (fun c => FsOp.write [t] c)) q = fs q := by
  induction cs with
  | nil => intro fs; rfl
  | cons c cs ih =>
    intro fs
    rw [List.map_cons, applyOps_cons, ih]
    rcases hfs : fs [t] with _ | e
    · simp [applyOp, hfs]
    · rcases e with _ | fd
      · simp [applyOp, hfs]
      · rcases fd with r | l | i <;> simp [applyOp, hfs, FS.set, hq]



theorem applyOps_singleton (fs : FS) (op : FsOp) :
    applyOps fs [op] = applyOp fs op := rfl

/-- No write or create event of the streaming phase targets the blob
directory. -/
theorem filter_writes_nil (t : String) (cs : List (List Nat)) :
    (cs.map (fun c => FsOp.write [t] c)).filter touchesBlobDir = [] := by
  induction cs with
  | nil => rfl
  | cons c cs ih =>
    rw [List.map_cons, List.filter_cons]
    have h : touchesBlobDir (FsOp.write [t] c) = false := by
      simp [touchesBlobDir, blob_path]
    simp [h, ih]

/-- C3: the `put_blob` event trace writes the compressed bytes only to the
fresh temp file, whose path lies directly in the root directory and never
inside the blob directory; the only event targeting the blob directory is the
single rename of the temp file to the digest-derived final name; at every
intermediate point of the trace a reader of the final path sees either what
was there before or the complete compressed content, never a partial file; and
the full trace produces exactly the filesystem `put_blob` returns. -/
theorem put_blob_atomic_rename :
    ∀ (C : Compression) (fs : FS) (tmpName : String) (b : List Nat)
      (cs : List (List Nat)),
      cs.flatten = C.compress b →
      ([tmpName].length = 1 ∧ [tmpName].take 2 ≠ blob_path) ∧
      (∀ p c, FsOp.write p c ∈ put_blobTrace tmpName b cs → p = [tmpName]) ∧
      ((put_blobTrace tmpName b cs).filter touchesBlobDir
          = [FsOp.rename [tmpName] (blobFile (hexEncode (sha256 b)))]) ∧
      (∀ k,
        applyOps fs ((put_blobTrace tmpName b cs).take k)
            (blobFile (hexEncode (sha256 b)))
          = fs (blobFile (hexEncode (sha256 b))) ∨
        applyOps fs ((put_blobTrace tmpName b cs).take k)
            (blobFile (hexEncode (sha256 b)))
          = some (.file (.raw (C.compress b)))) ∧
      (∀ q, applyOps fs (put_blobTrace tmpName b cs) q
          = (Image.put_blob C fs tmpName b).2 q) := by
  intro C fs tmpName b cs hcs
  have hfinal_ne : blobFile (hexEncode (sha256 b)) ≠ [tmpName] := by
    simp [blobFile]
  have htr : put_blobTrace tmpName b cs
      = FsOp.create [tmpName] ::
        (cs.map (fun c => FsOp.write [tmpName] c)
          ++ [FsOp.rename [tmpName] (blobFile (hexEncode (sha256 b)))]) := rfl
  have hcreate : applyOp fs (FsOp.create [tmpName])
      = fs.set [tmpName] (.file (.raw [])) := rfl
  have hacc := applyOps_writes_acc tmpName cs
      (fs.set [tmpName] (.file (.raw []))) [] (by simp [FS.set])
  have hren : applyOp
        (applyOps (fs.set [tmpName] (.file (.raw [])))
          (cs.map (fun c => FsOp.write [tmpName] c)))
        (FsOp.rename [tmpName] (blobFile (hexEncode (sha256 b))))
      = ((applyOps (fs.set [tmpName] (.file (.raw [])))
            (cs.map (fun c => FsOp.write [tmpName] c))).del [tmpName]).set
          (blobFile (hexEncode (sha256 b))) (.file (.raw ([] ++ cs.flatten))) := by
    simp only [applyOp, hacc]
  refine ⟨⟨rfl, by simp [blob_path]⟩, ?_, ?_, ?_, ?_⟩
  · intro p c hmem
    simp [put_blobTrace, List.mem_cons, List.mem_append, List.mem_map] at hmem
    exact hmem.2.symm
  · rw [htr, List.filter_cons, List.filter_append, filter_writes_nil]
    have h1 : touchesBlobDir (FsOp.create [tmpName]) = false := by
      simp [touchesBlobDir, blob_path]
    have h2 : touchesBlobDir
        (FsOp.rename [tmpName] (blobFile (hexEncode (sha256 b)))) = true := by
      simp [touchesBlobDir, blobFile, blob_path]
    simp [h1, h2]
  · intro k
    rcases k with _ | j
    · exact Or.inl rfl
    · rw [htr, List.take_succ_cons, applyOps_cons, hcreate]
      by_cases hj : j ≤ cs.length
      · left
        rw [List.take_append_of_le_length (by simpa using hj), ← List.map_take]
        rw [applyOps_writes_frame tmpName _ hfinal_ne (cs.take j)]
        simp [FS.set, hfinal_ne]
      · right
        rw [List.take_of_length_le (by simp; omega), applyOps_append,
            applyOps_singleton, hren]
        simp [FS.set, hcs]
  · intro q
    rw [htr, applyOps_cons, hcreate, applyOps_append, applyOps_singleton, hren]
    by_cases hq1 : q = blobFile (hexEncode (sha256 b))
    · subst hq1
      simp [FS.set, Image.put_blob, hcs]
    · by_cases hq2 : q = [tmpName]
      · subst hq2
        simp [FS.set, FS.del, Image.put_blob, Ne.symm hfinal_ne,
              Ne.symm (fun h => hq1 h.symm)]
      · rw [show (((applyOps (fs.set [tmpName] (.file (.raw [])))
              (cs.map (fun c => FsOp.write [tmpName] c))).del [tmpName]).set
            (blobFile (hexEncode (sha256 b)))
            (.file (.raw ([] ++ cs.flatten)))) q
          = ((applyOps (fs.set [tmpName] (.file (.raw [])))
              (cs.map (fun c => FsOp.write [tmpName] c))).del [tmpName]) q
          from by simp [FS.set, hq1]]
        rw [show ((applyOps (fs.set [tmpName] (.file (.raw [])))
              (cs.map (fun c => FsOp.write [tmpName] c))).del [tmpName]) q
          = (applyOps (fs.set [tmpName] (.file (.raw [])))
              (cs.map (fun c => FsOp.write [tmpName] c))) q
          from by simp [FS.del, hq2]]
        rw [applyOps_writes_frame tmpName q hq2 cs]
        simp [FS.set, FS.del, Image.put_blob, hq1, hq2]

/-- Witness for C3: the trace of storing "ab" with Noop compression in two
write chunks has the single rename as its only blob-directory event. -/
theorem put_blob_atomic_rename_witness :
    (put_blobTrace ".t" (strBytes "ab") [[97], [98]]).filter touchesBlobDir
      = [FsOp.rename [".t"] (blobFile (hexEncode (sha256 (strBytes "ab"))))] :=
  (put_blob_atomic_rename Noop emptyFS ".t" (strBytes "ab") [[97], [98]]
    (by rfl)).2.2.1
